import Mathlib

/-!
Verification of the `go_geneset` data plugin (`src/parser.py`).

The file embeds the four components of the pipeline as executable Lean
definitions and proves the stated properties about them:

* `parse_gaf`   — streaming aggregation of gene sets per GO term;
* `parse_obo`   — the OBO text-format ontology loader;
* `get_NCBI_id` — the two-pass batched identifier resolver (the external
  `mygene` service is a parameter);
* `assembleRecord` / `processFile` — the per-file document assembler
  (the body of `load_data`'s annotation-file loop).

Python dictionaries are modelled as insertion-ordered association lists,
Python sets of `(uniprot, symbol)` tuples as duplicate-free lists, and the
fallible operations (`KeyError`, `ValueError`, `IndexError`, `NameError`)
as `Except String`.
-/

namespace GoGeneset

/-! ### Python string primitives

Core Lean `String.splitOn`/`replace`/`startsWith` are not kernel-reducible,
so the Python string methods used by the source are re-implemented over
`String.data` (lists of characters) by structural recursion.
-/

/-- If `pre` is a prefix of `s`, return the remainder of `s`, else `none`. -/
def dropPre : List Char → List Char → Option (List Char)
  | [], s => some s
  | _ :: _, [] => none
  | p :: ps, c :: cs => if p = c then dropPre ps cs else none

/-- Fuelled worker for Python `str.split(sep)`: scan left to right, cutting at
each leftmost non-overlapping occurrence of `sep`.  One unit of fuel is spent
per character examined, so fuel `s.length + 1` is always enough when `sep` is
non-empty (every step drops at least one character of the input). -/
def splitCF (sep : List Char) : Nat → List Char → List Char → List (List Char)
  | 0, s, acc => [acc.reverse ++ s]
  | _ + 1, [], acc => [acc.reverse]
  | fuel + 1, c :: cs, acc =>
    match dropPre sep (c :: cs) with
    | some rest => acc.reverse :: splitCF sep fuel rest []
    | none => splitCF sep fuel cs (c :: acc)

/-- Python `s.split(sep)` for a non-empty separator. -/
def strSplit (s sep : String) : List String :=
  (splitCF sep.data (s.data.length + 1) s.data []).map String.mk

/-- Python `s.startswith(pre)`. -/
def pyStartsWith (s pre : String) : Bool :=
  (dropPre pre.data s.data).isSome

/-- Python `sep.join(parts)` at the character level. -/
def joinC (sep : List Char) : List (List Char) → List Char
  | [] => []
  | [x] => x
  | x :: xs => x ++ sep ++ joinC sep xs

/-- Python `sep.join(parts)`. -/
def strJoin (sep : String) (parts : List String) : String :=
  String.mk (joinC sep.data (parts.map String.data))

/-- Python `s.replace(pat, rep)` (replace every occurrence), via
`rep.join(s.split(pat))`. -/
def pyReplace (s pat rep : String) : String :=
  strJoin rep (strSplit s pat)

/-- Python `s.find(c) != -1` for a single-character needle `c`. -/
def strContainsChar (s : String) (c : Char) : Bool :=
  s.data.contains c

/-! ### Python `dict` as an insertion-ordered association list -/

/-- `d.get(k)`: the value at the first (unique, by construction) occurrence
of key `k`. -/
def dget {α : Type} : List (String × α) → String → Option α
  | [], _ => none
  | (k', v) :: d, k => if k' = k then some v else dget d k

/-- `d[k] = v`: overwrite the value at `k` in place if the key exists,
otherwise append the new binding at the end (CPython insertion order). -/
def dset {α : Type} : List (String × α) → String → α → List (String × α)
  | [], k, v => [(k, v)]
  | (k', v') :: d, k, v =>
    if k' = k then (k, v) :: d else (k', v') :: dset d k v

/-! ### JSON-like values

The documents built by `load_data` mix strings, booleans, integers, lists
and nested dicts; `Value` is their common type.
-/

inductive Value where
  | str : String → Value
  | bool : Bool → Value
  | nat : Nat → Value
  | list : List Value → Value
  | dict : List (String × Value) → Value

/-- Python emptiness/null-ness of a value, as used by the cleanup utility. -/
def isEmptyV : Value → Bool
  | .str s => s = ""
  | .list l => l.isEmpty
  | .dict d => d.isEmpty
  | _ => false

/-- Python truthiness, as in `if NCBI_dict.get(x):`. -/
def truthyV : Value → Bool
  | .str s => ¬ s = ""
  | .bool b => b
  | .nat n => ¬ n = 0
  | .list l => ¬ l.isEmpty
  | .dict d => ¬ d.isEmpty

mutual
/-- Modelled from the spec: `dict_sweep` from `biothings.utils.dataload`
(an external library collaborator, not part of this repository's source):
"recursively strip empty/null values from each record". -/
def sweepV : Value → Value
  | .str s => .str s
  | .bool b => .bool b
  | .nat n => .nat n
  | .list l => .list (sweepL l)
  | .dict d => .dict (sweepD d)

/-- `sweepV` on the elements of a list, dropping entries that are empty
after sweeping. -/
def sweepL : List Value → List Value
  | [] => []
  | v :: vs =>
    if isEmptyV (sweepV v) then sweepL vs else sweepV v :: sweepL vs

/-- `sweepV` on the values of a dict, dropping bindings that are empty
after sweeping. -/
def sweepD : List (String × Value) → List (String × Value)
  | [] => []
  | (k, v) :: d =>
    if isEmptyV (sweepV v) then sweepD d else (k, sweepV v) :: sweepD d
end

mutual
/-- Modelled from the spec: `unlist` from `biothings.utils.dataload`
(an external library collaborator, not part of this repository's source):
"collapse single-element containers to their scalar value". -/
def unlistV : Value → Value
  | .str s => .str s
  | .bool b => .bool b
  | .nat n => .nat n
  | .list l =>
    match unlistL l with
    | [x] => x
    | l' => .list l'
  | .dict d => .dict (unlistD d)

/-- `unlistV` on the elements of a list. -/
def unlistL : List Value → List Value
  | [] => []
  | v :: vs => unlistV v :: unlistL vs

/-- `unlistV` on the values of a dict. -/
def unlistD : List (String × Value) → List (String × Value)
  | [] => []
  | (k, v) :: d => (k, unlistV v) :: unlistD d
end

/-! ### `parse_gaf` — the annotation loader

A GAF data row is modelled by the six columns the parser reads:
`rec[0]` (source database), `rec[1]` (protein id), `rec[2]` (gene symbol),
`rec[3]` (pipe-delimited qualifiers), `rec[4]` (GO term id) and `rec[12]`
(pipe-delimited taxon field).  Rows are assumed to be full-width, matching
well-formed GAF input (a short row faults in the source with an
`IndexError`, behaviour none of the claims concern).
-/

structure GafRow where
  db : String
  uniprot : String
  symbol : String
  qualifier : String
  goId : String
  taxon : String
deriving DecidableEq, Repr

/-- The per-GO-term annotation record built by `parse_gaf`.  The four gene
buckets model Python sets of `(uniprot, symbol)` tuples as duplicate-free
lists; a bucket is `none` when its key is absent from the Python dict
(`setdefault` creates it on first insertion, so a present bucket is
non-empty). -/
structure Record where
  _id : String
  is_public : Bool
  taxid : String
  genes : Option (List (String × String)) := none
  excluded_genes : Option (List (String × String)) := none
  contributing_genes : Option (List (String × String)) := none
  colocalized_genes : Option (List (String × String)) := none
deriving DecidableEq, Repr

/-- `rec[12].split("|")[0].replace("taxon:", "")`. -/
def taxidOf (row : GafRow) : String :=
  pyReplace ((strSplit row.taxon "|").headD "") "taxon:" ""

/-- The record initialised on first encounter of a GO term id
(`parser.py` lines 105–110). -/
def initRecord (i : String) (row : GafRow) : Record :=
  { _id := i, is_public := true, taxid := taxidOf row }

/-- Python `set.add`: append the pair unless already present. -/
def insertPair (l : List (String × String)) (p : String × String) :
    List (String × String) :=
  if p ∈ l then l else l ++ [p]

/-- `setdefault(key, set()).add(p)` on an optional bucket. -/
def bucketAdd (b : Option (List (String × String))) (p : String × String) :
    Option (List (String × String)) :=
  some (insertPair (b.getD []) p)

/-- The qualifier classification of `parser.py` lines 115–130.  Note that in
the source the `else` branch is attached to the `colocalizes_with` test
only: the member (`genes`) bucket receives the pair exactly when
`colocalizes_with` is absent from the qualifier list, regardless of `NOT`
or `contributes_to`. -/
def addQualifiers (quals : List String) (u s : String) (r : Record) : Record :=
  let r := if quals.contains "NOT" then
      { r with excluded_genes := bucketAdd r.excluded_genes (u, s) } else r
  let r := if quals.contains "contributes_to" then
      { r with contributing_genes := bucketAdd r.contributing_genes (u, s) } else r
  if quals.contains "colocalizes_with" then
    { r with colocalized_genes := bucketAdd r.colocalized_genes (u, s) }
  else
    { r with genes := bucketAdd r.genes (u, s) }

/-- Apply `f` to the record stored at key `k` (the in-place mutation of
`genesets[_id]`; keys are unique by construction). -/
def updateRec : List (String × Record) → String → (Record → Record) →
    List (String × Record)
  | [], _, _ => []
  | (k', r) :: m, k, f =>
    if k' = k then (k', f r) :: updateRec m k f
    else (k', r) :: updateRec m k f

/-- One iteration of the `parse_gaf` row loop (`parser.py` lines 102–130). -/
def processRow (m : List (String × Record)) (row : GafRow) :
    List (String × Record) :=
  if pyStartsWith row.db "!" then m
  else
    let i := row.goId
    let m' := if (dget m i).isNone then m ++ [(i, initRecord i row)] else m
    updateRec m' i (addQualifiers (strSplit row.qualifier "|") row.uniprot row.symbol)

/-- `parse_gaf` over the data rows of one annotation file. -/
def parse_gaf (rows : List GafRow) : List (String × Record) :=
  rows.foldl processRow []

/-! ### `parse_obo` — the ontology loader

The input is the list of lines of the `.obo` file (newlines already
stripped, mirroring `line.replace("\n", "")`).  A term record is an
association list of `key: value` pairs; the result maps GO ids to term
records.  The fallible unpacking `key, value = line.split(": ", 1)` and the
`term_data['id']` lookup are modelled in `Except String`.
-/

/-- Python `key, value = line.split(": ", 1)`: `none` when the separator
does not occur (a `ValueError` in the source). -/
def splitKV (line : String) : Option (String × String) :=
  match strSplit line ": " with
  | [_] => none
  | k :: rest => some (k, strJoin ": " rest)
  | [] => none

structure OboState where
  record : Bool
  term_data : List (String × String)
  go_terms : List (String × List (String × String))
deriving DecidableEq, Repr

def oboInit : OboState := ⟨false, [], []⟩

/-- Committing a finished record at a blank line (`parser.py` lines
146–153): key the accumulator under its `id`, and additionally under its
`alt_id` when present — both bindings carry the same record. -/
def commitTerm (s : OboState) : Except String OboState :=
  match dget s.term_data "id" with
  | none => .error "KeyError: id"
  | some i =>
    let g := dset s.go_terms i s.term_data
    let g := match dget s.term_data "alt_id" with
      | some a => dset g a s.term_data
      | none => g
    .ok { s with go_terms := g, record := false }

/-- The value post-processing of `parser.py` lines 158–160: strip quote
characters, then truncate at an inline ` ! ` comment when a `!` occurs. -/
def oboValue (v : String) : String :=
  let v := pyReplace v "\"" ""
  if strContainsChar v '!' then (strSplit v " ! ").headD v else v

/-- One iteration of the `parse_obo` line loop (`parser.py` lines 143–165):
the blank-line check, the in-record `key: value` parse, and the `[Term]`
marker check are three successive `if`s, not an `if`/`elif` chain. -/
def oboStep (s : OboState) (line : String) : Except String OboState := do
  let s ← if line = "" then
      (if s.record then commitTerm s else .ok { s with record := false })
    else .ok s
  let s ← if s.record then
      match splitKV line with
      | none => .error "ValueError: not enough values to unpack"
      | some (k, v) =>
        .ok { s with term_data := dset s.term_data k (oboValue v) }
    else .ok s
  .ok (if pyStartsWith line "[Term]" then { s with record := true, term_data := [] } else s)

/-- `parse_obo` over the lines of the ontology file. -/
def parse_obo (lines : List String) :
    Except String (List (String × List (String × String))) :=
  (lines.foldlM oboStep oboInit).map (fun s => s.go_terms)

/-! ### `get_NCBI_id` — the identifier resolver

The external `mygene.info` service is a parameter
`svc : terms → scope → species → QueryResponse`, standing for
`mg.querymany(terms, scopes=scope, fields='entrezgene', species=species,
returnall=True)`.  The function also returns the list of service calls it
performed, so that call count and call arguments are observable.
-/

/-- One hit in a `querymany` response: the echoed query term and the
optional `entrezgene` field. -/
structure QueryOut where
  query : String
  entrezgene : Option Nat
deriving DecidableEq, Repr

/-- A `querymany(..., returnall=True)` response: the `out` hits and the
`missing` list of unmatched query terms. -/
structure QueryResponse where
  out : List QueryOut
  missing : List String
deriving DecidableEq, Repr

/-- The arguments of one `querymany` call. -/
structure SvcCall where
  terms : List String
  scope : String
  species : String
deriving DecidableEq, Repr

/-- `ncbi_ids.setdefault(query, []).append(entrezgene)`. -/
def dappend (m : List (String × List Nat)) (k : String) (e : Nat) :
    List (String × List Nat) :=
  match dget m k with
  | some l => dset m k (l ++ [e])
  | none => m ++ [(k, [e])]

/-- The response-processing loop of `get_NCBI_id` (`parser.py` lines 80–84
and 89–93): append the `entrezgene` of every hit that has one. -/
def addOuts (outs : List QueryOut) (m : List (String × List Nat)) :
    List (String × List Nat) :=
  outs.foldl (fun m o =>
    match o.entrezgene with
    | some e => dappend m o.query e
    | none => m) m

/-- The `entrezgene` values contributed for query term `q` by a response's
hit list, in order (specification-side helper for the resolver theorems). -/
def collectOuts (outs : List QueryOut) (q : String) : List Nat :=
  outs.filterMap (fun o => if o.query = q then o.entrezgene else none)

/-- `[uniprot_ids[symbols.index(k)] for k in missing]` (`parser.py` line
86): pair each missing symbol with the protein id at the position of its
first occurrence in `symbols`; a symbol absent from `symbols` raises
`ValueError`, an index beyond `uniprot_ids` raises `IndexError`. -/
def retryList (symbols uniprot_ids : List String) :
    List String → Except String (List String)
  | [] => .ok []
  | k :: ks =>
    match symbols.indexOf? k with
    | none => .error "ValueError: not in list"
    | some i =>
      match uniprot_ids[i]? with
      | none => .error "IndexError: list index out of range"
      | some u => (retryList symbols uniprot_ids ks).map (fun r => u :: r)

/-- The dict of resolved ids, converted to `Value`s and passed through
`unlist` (`parser.py` line 94). -/
def ncbiFinish (m : List (String × List Nat)) : List (String × Value) :=
  unlistD (m.map (fun p => (p.1, Value.list (p.2.map Value.nat))))

/-- `get_NCBI_id(symbols, uniprot_ids, taxid)` (`parser.py` lines 71–95),
parameterised by the external service and instrumented with the list of
service calls made. -/
def get_NCBI_id (symbols uniprot_ids : List String) (taxid : String)
    (svc : List String → String → String → QueryResponse) :
    List SvcCall × Except String (List (String × Value)) :=
  let r1 := svc symbols "symbol" taxid
  let ncbi1 := addOuts r1.out []
  match retryList symbols uniprot_ids r1.missing with
  | .error e => ([⟨symbols, "symbol", taxid⟩], .error e)
  | .ok retry =>
    let r2 := svc retry "uniprot" taxid
    ([⟨symbols, "symbol", taxid⟩, ⟨retry, "uniprot", taxid⟩],
     .ok (ncbiFinish (addOuts r2.out ncbi1)))

/-! ### The document assembler — the body of `load_data`'s per-file loop -/

/-- A `KeyError`-style lookup: `none` becomes `Except.error msg`. -/
def req {α : Type} (o : Option α) (msg : String) : Except String α :=
  match o with
  | some a => .ok a
  | none => .error msg

/-- A required string-valued dict entry (used for the `_id` and `taxid`
concatenation, which needs string values). -/
def reqStr (o : Option Value) (msg : String) : Except String String :=
  match o with
  | some (.str s) => .ok s
  | some _ => .error "TypeError: can only concatenate str"
  | none => .error msg

/-- `{"uniprot": i, "symbol": j}` plus the `ncbigene` field attached by
looking up the symbol first and the protein id second (`parser.py` lines
38–44 and 52–57); truthiness mirrors Python `if NCBI_dict.get(x):`. -/
def geneEntry (NCBI : List (String × Value)) (p : String × String) :
    List (String × Value) :=
  let base := [("uniprot", Value.str p.1), ("symbol", Value.str p.2)]
  match dget NCBI p.2 with
  | some v =>
    if truthyV v then base ++ [("ncbigene", v)]
    else match dget NCBI p.1 with
      | some w => if truthyV w then base ++ [("ncbigene", w)] else base
      | none => base
  | none =>
    match dget NCBI p.1 with
    | some w => if truthyV w then base ++ [("ncbigene", w)] else base
    | none => base

/-- Replace an optional bucket's set of pairs by its list of gene dicts
(`parser.py` lines 49–58); an absent bucket leaves the record unchanged. -/
def attachBucket (NCBI : List (String × Value)) (ann : List (String × Value))
    (key : String) (b : Option (List (String × String))) :
    List (String × Value) :=
  match b with
  | none => ann
  | some l => dset ann key (.list (l.map (fun p => Value.dict (geneEntry NCBI p))))

/-- The always-present scalar entries of an annotation record, in their
`parse_gaf` insertion order. -/
def toDictBase (r : Record) : List (String × Value) :=
  [("_id", .str r._id), ("is_public", .bool r.is_public), ("taxid", .str r.taxid)]

/-- The tail of `load_data`'s assembly loop once the member bucket is known
to be present (`parser.py` lines 38–68): convert the buckets of `r` into
gene-dict lists, clean up with `dict_sweep` and `unlist`, rewrite `_id` by
appending the taxid, and reorder into the fixed key sequence
`_id, date, creator, is_public, taxid, genes, go`. -/
def assembleGenes (NCBI : List (String × Value)) (ann : List (String × Value))
    (r : Record) (gs : List (String × String)) :
    Except String (List (String × Value)) := do
  let ann := dset ann "genes" (.list (gs.map (fun p => Value.dict (geneEntry NCBI p))))
  let ann := attachBucket NCBI ann "excluded_genes" r.excluded_genes
  let ann := attachBucket NCBI ann "contributing_genes" r.contributing_genes
  let ann := attachBucket NCBI ann "colocalized_genes" r.colocalized_genes
  let ann := sweepD ann
  let ann := unlistD ann
  let i ← reqStr (dget ann "_id") "KeyError: _id"
  let t ← reqStr (dget ann "taxid") "KeyError: taxid"
  let ann := dset ann "_id" (.str (i ++ "-" ++ t))
  (["_id", "date", "creator", "is_public", "taxid", "genes", "go"]).mapM
    (fun key => (req (dget ann key) ("KeyError: " ++ key)).map (fun v => (key, v)))

/-- One iteration of `load_data`'s assembly loop (`parser.py` lines 30–68)
for the pair `(k, r)`: attach ontology metadata, drop the record when the
member bucket is absent (`.ok none`), and otherwise continue with
`assembleGenes`.  Unhandled Python exceptions are `Except.error`s. -/
def assembleRecord (goterms : List (String × List (String × String)))
    (NCBI : List (String × Value)) (k : String) (r : Record) :
    Except String (Option (List (String × Value))) := do
  let g ← req (dget goterms k) ("KeyError: " ++ k)
  let nm ← req (dget g "name") "KeyError: name"
  let ns ← req (dget g "namespace") "KeyError: namespace"
  let df ← req (dget g "def") "KeyError: def"
  let ann := toDictBase r
  let ann := dset ann "go" (Value.dict
    [("id", .str k), ("name", .str nm), ("type", .str ns), ("description", .str df)])
  match r.genes with
  | none => pure none
  | some gs => (assembleGenes NCBI ann r gs).map some

/-- The union of the four gene buckets of one record (`parser.py` lines
20–23). -/
def bucketsUnion (r : Record) : Finset (String × String) :=
  (r.genes.getD []).toFinset ∪ (r.excluded_genes.getD []).toFinset ∪
    (r.contributing_genes.getD []).toFinset ∪ (r.colocalized_genes.getD []).toFinset

/-- The body of `load_data`'s annotation-file loop (`parser.py` lines
14–68) for one parsed file `docs`: collect all genes, call the resolver
once with the taxid of the loop's final record (line 26 reads the loop
variable after the gene-collection loop), then assemble each record.  The
first component logs every resolver call; on an empty `docs` the taxid
read raises `NameError` before any call is made. -/
def processFile (goterms : List (String × List (String × String)))
    (docs : List (String × Record))
    (resolve : Finset (String × String) → String → List (String × Value)) :
    List (Finset (String × String) × String) ×
      Except String (List (List (String × Value))) :=
  match docs.getLast? with
  | none => ([], .error "NameError: name annotations is not defined")
  | some lastDoc =>
    let all_genes := docs.foldl (fun acc p => acc ∪ bucketsUnion p.2) ∅
    let taxid := lastDoc.2.taxid
    let NCBI := resolve all_genes taxid
    ([(all_genes, taxid)],
     docs.foldlM (fun acc p =>
       (assembleRecord goterms NCBI p.1 p.2).map
         (fun d => match d with
           | none => acc
           | some doc => acc ++ [doc])) [])

/-! ### Concrete fixtures used by the witness theorems -/

/-- A GAF row with an empty qualifier column. -/
def rowPlain : GafRow :=
  ⟨"UniProtKB", "P1", "GENE1", "", "GO:0000001", "taxon:9606"⟩

/-- A GAF row qualified `NOT`. -/
def rowNot : GafRow :=
  ⟨"UniProtKB", "P2", "GENE2", "NOT", "GO:0000001", "taxon:9606"⟩

/-- A GAF row for a second term, in a different taxon. -/
def rowOther : GafRow :=
  ⟨"UniProtKB", "P3", "GENE3", "", "GO:0000002", "taxon:10090"⟩

/-- A second row for `GO:0000001` carrying a different taxon column. -/
def rowLateTaxon : GafRow :=
  ⟨"UniProtKB", "P4", "GENE4", "", "GO:0000001", "taxon:10090"⟩

/-- A one-term ontology table. -/
def goFix : List (String × List (String × String)) :=
  [("GO:0000001",
    [("id", "GO:0000001"), ("name", "mitochondrion inheritance"),
     ("namespace", "biological_process"),
     ("def", "The distribution of mitochondria.")])]

/-- A record with a member bucket. -/
def recMember : Record :=
  { _id := "GO:0000001", is_public := true, taxid := "9606",
    genes := some [("P1", "GENE1")] }

/-- A record with only an excluded bucket and no member bucket. -/
def recExcluded : Record :=
  { _id := "GO:0000001", is_public := true, taxid := "9606",
    excluded_genes := some [("P2", "GENE2")] }

/-- A second record, in another taxon. -/
def recOther : Record :=
  { _id := "GO:0000002", is_public := true, taxid := "10090",
    genes := some [("P3", "GENE3")] }

/-- A service fixture: the symbol pass reports `ABC` missing, the uniprot
pass resolves `P123`. -/
def svcFix : List String → String → String → QueryResponse := fun _ scope _ =>
  if scope = "symbol" then ⟨[⟨"GENE1", some 7⟩, ⟨"GENE1", some 8⟩], ["ABC"]⟩
  else ⟨[⟨"P123", some 42⟩], []⟩

/-! ## Lemmas and theorems -/

@[simp] theorem ok_bind {ε α β : Type} (a : α) (f : α → Except ε β) :
    (Except.ok a >>= f) = f a := rfl

@[simp] theorem error_bind {ε α β : Type} (e : ε) (f : α → Except ε β) :
    ((Except.error e : Except ε α) >>= f) = Except.error e := rfl

@[simp] theorem error_map {ε α β : Type} (e : ε) (f : α → β) :
    ((Except.error e : Except ε α).map f) = Except.error e := rfl

@[simp] theorem ok_map {ε α β : Type} (a : α) (f : α → β) :
    ((Except.ok a : Except ε α).map f) = Except.ok (f a) := rfl

@[simp] theorem pure_except {ε α : Type} (a : α) :
    (pure a : Except ε α) = Except.ok a := rfl

theorem dget_dset_self {α : Type} (d : List (String × α)) (k : String) (v : α) :
    dget (dset d k v) k = some v := by
  induction d with
  | nil => simp [dget, dset]
  | cons p d ih =>
    obtain ⟨k', v'⟩ := p
    by_cases h : k' = k
    · simp [dget, dset, h]
    · simp [dget, dset, h, ih]

theorem dget_dset_ne {α : Type} (d : List (String × α)) (k k' : String) (v : α)
    (h : k ≠ k') : dget (dset d k v) k' = dget d k' := by
  induction d with
  | nil => simp [dget, dset, h]
  | cons p d ih =>
    obtain ⟨k₀, v₀⟩ := p
    by_cases h0 : k₀ = k
    · subst h0
      simp [dget, dset, h]
    · simp only [dset, if_neg h0, dget]
      by_cases h1 : k₀ = k'
      · simp [h1]
      · simp [h1, ih]

theorem dget_append {α : Type} (d d' : List (String × α)) (k : String) :
    dget (d ++ d') k = match dget d k with
      | some v => some v
      | none => dget d' k := by
  induction d with
  | nil => simp [dget]
  | cons p d ih =>
    obtain ⟨k', v⟩ := p
    by_cases h : k' = k
    · simp [dget, h]
    · simp [dget, h, ih]

theorem dget_sweepD_none (d : List (String × Value)) (k : String)
    (h : dget d k = none) : dget (sweepD d) k = none := by
  induction d with
  | nil => simpa [sweepD] using h
  | cons p d ih =>
    obtain ⟨k', v⟩ := p
    by_cases hk : k' = k
    · simp [dget, hk] at h
    · simp only [dget, if_neg hk] at h
      by_cases he : isEmptyV (sweepV v)
      · simp [sweepD, he, ih h]
      · simp [sweepD, he, dget, hk, ih h]

theorem dget_sweepD_some (d : List (String × Value)) (k : String) (v : Value)
    (h : dget d k = some v) (hv : isEmptyV (sweepV v) = false) :
    dget (sweepD d) k = some (sweepV v) := by
  induction d with
  | nil => simp [dget] at h
  | cons p d ih =>
    obtain ⟨k', v'⟩ := p
    by_cases hk : k' = k
    · simp only [dget, if_pos hk, Option.some.injEq] at h
      subst h
      simp [sweepD, hv, dget, hk]
    · simp only [dget, if_neg hk] at h
      by_cases he : isEmptyV (sweepV v')
      · simp [sweepD, he, ih h]
      · simp [sweepD, he, dget, hk, ih h]

theorem dget_unlistD (d : List (String × Value)) (k : String) :
    dget (unlistD d) k = (dget d k).map unlistV := by
  induction d with
  | nil => simp [unlistD, dget]
  | cons p d ih =>
    obtain ⟨k', v⟩ := p
    by_cases hk : k' = k
    · simp [unlistD, dget, hk]
    · simp [unlistD, dget, hk, ih]

/-! ### `parse_obo` lemmas -/

theorem oboStep_blank_commit (s : OboState) (i a : String)
    (hr : s.record = true) (hi : dget s.term_data "id" = some i)
    (ha : dget s.term_data "alt_id" = some a) :
    oboStep s "" = .ok { s with
      record := false,
      go_terms := dset (dset s.go_terms i s.term_data) a s.term_data } := by
  have hT : pyStartsWith "" "[Term]" = false := by decide
  simp [oboStep, commitTerm, hr, hi, ha, hT]

theorem oboStep_go_terms_stable (s : OboState) (line : String)
    (hl : ¬ line = "") (hkv : (splitKV line).isSome) :
    ∃ s', oboStep s line = .ok s' ∧ s'.go_terms = s.go_terms := by
  rcases Option.isSome_iff_exists.mp hkv with ⟨⟨k, v⟩, hkv'⟩
  by_cases hr : s.record
  · by_cases hT : pyStartsWith line "[Term]"
    · exact ⟨{ s with record := true, term_data := [] },
        by simp [oboStep, hl, hr, hkv', hT], rfl⟩
    · exact ⟨{ s with term_data := dset s.term_data k (oboValue v) },
        by simp [oboStep, hl, hr, hkv', hT], rfl⟩
  · by_cases hT : pyStartsWith line "[Term]"
    · exact ⟨{ s with record := true, term_data := [] },
        by simp [oboStep, hl, hr, hT], rfl⟩
    · exact ⟨s, by simp [oboStep, hl, hr, hT], rfl⟩

theorem foldlM_go_terms_stable (kvs : List String) :
    ∀ s0 : OboState, (∀ l ∈ kvs, ¬ l = "" ∧ (splitKV l).isSome) →
      ∃ s', List.foldlM oboStep s0 kvs = .ok s' ∧ s'.go_terms = s0.go_terms := by
  induction kvs with
  | nil => exact fun s0 _ => ⟨s0, by simp, rfl⟩
  | cons l ks ih =>
    intro s0 h
    obtain ⟨hl, hkv⟩ := h l (by simp)
    obtain ⟨s1, h1, hg1⟩ := oboStep_go_terms_stable s0 l hl hkv
    obtain ⟨s', h', hg'⟩ := ih s1 (fun x hx => h x (by simp [hx]))
    exact ⟨s', by simp [h1, h'], by rw [hg', hg1]⟩

/-- C5: an OBO record terminated by a blank line and carrying an `alt_id`
field is committed under two keys — its `id` and its `alt_id` — and both
keys map to the same term record. -/
theorem parse_obo_alt_id_two_keys (ls : List String) (s : OboState)
    (i a : String) (hs : List.foldlM oboStep oboInit ls = .ok s)
    (hr : s.record = true) (hi : dget s.term_data "id" = some i)
    (ha : dget s.term_data "alt_id" = some a) :
    ∃ G, parse_obo (ls ++ [""]) = .ok G ∧
      dget G i = some s.term_data ∧ dget G a = some s.term_data := by
  have hstep := oboStep_blank_commit s i a hr hi ha
  refine ⟨dset (dset s.go_terms i s.term_data) a s.term_data, ?_, ?_, ?_⟩
  · simp [parse_obo, hs, hstep]
  · by_cases hai : a = i
    · rw [hai, dget_dset_self]
    · rw [dget_dset_ne _ _ _ _ hai, dget_dset_self]
  · rw [dget_dset_self]

/-- C5 witness: `id: GO:0000001` with `alt_id: GO:0000099`, terminated by
a blank line, yields both keys bound to the same record. -/
theorem parse_obo_alt_id_two_keys_witness :
    ∃ G, parse_obo ["[Term]", "id: GO:0000001", "alt_id: GO:0000099", ""] =
        .ok G ∧
      dget G "GO:0000001" =
        some [("id", "GO:0000001"), ("alt_id", "GO:0000099")] ∧
      dget G "GO:0000099" =
        some [("id", "GO:0000001"), ("alt_id", "GO:0000099")] :=
  parse_obo_alt_id_two_keys ["[Term]", "id: GO:0000001", "alt_id: GO:0000099"]
    ⟨true, [("id", "GO:0000001"), ("alt_id", "GO:0000099")], []⟩
    "GO:0000001" "GO:0000099" rfl rfl (by decide) (by decide)

/-- C6: a trailing `[Term]` record that is never followed by a blank line
contributes nothing to the returned mapping — parsing the input with the
unterminated trailing record appended returns exactly the mapping of the
blank-terminated prefix, so the trailing record is silently lost. -/
theorem parse_obo_trailing_record_lost (ls : List String) (s : OboState)
    (kvs : List String) (hs : List.foldlM oboStep oboInit ls = .ok s)
    (hr : s.record = false)
    (hkvs : ∀ l ∈ kvs, ¬ l = "" ∧ (splitKV l).isSome) :
    parse_obo (ls ++ "[Term]" :: kvs) = parse_obo ls := by
  have h1 : oboStep s "[Term]" = .ok { s with record := true, term_data := [] } := by
    have hT : pyStartsWith "[Term]" "[Term]" = true := by decide
    have hne : ¬ ("[Term]" : String) = "" := by decide
    simp [oboStep, hr, hT, hne]
  obtain ⟨s', h', hg'⟩ := foldlM_go_terms_stable kvs
    { s with record := true, term_data := [] } hkvs
  simp [parse_obo, hs, h1, h', hg']

/-- C6 witness: the trailing record `id: GO:0000002` with no terminating
blank line is lost; only the blank-terminated `GO:0000001` is returned. -/
theorem parse_obo_trailing_record_lost_witness :
    parse_obo ["[Term]", "id: GO:0000001", "", "[Term]", "id: GO:0000002"] =
      parse_obo ["[Term]", "id: GO:0000001", ""] ∧
    parse_obo ["[Term]", "id: GO:0000001", "", "[Term]", "id: GO:0000002"] =
      .ok [("GO:0000001", [("id", "GO:0000001")])] := by
  constructor
  · exact parse_obo_trailing_record_lost ["[Term]", "id: GO:0000001", ""]
      ⟨false, [("id", "GO:0000001")],
        [("GO:0000001", [("id", "GO:0000001")])]⟩
      ["id: GO:0000002"] rfl rfl (by decide)
  · rfl

/-- C10: while inside a record, any non-blank line without the `": "`
separator — a second `[Term]` marker included — makes `parse_obo` raise
the unpacking fault instead of returning a mapping, whatever lines
follow. -/
theorem parse_obo_unpack_fault (ls : List String) (s : OboState)
    (line : String) (rest : List String)
    (hs : List.foldlM oboStep oboInit ls = .ok s) (hr : s.record = true)
    (hl : ¬ line = "") (hkv : splitKV line = none) :
    parse_obo (ls ++ line :: rest) =
      .error "ValueError: not enough values to unpack" := by
  have hstep : oboStep s line = .error "ValueError: not enough values to unpack" := by
    simp [oboStep, hl, hr, hkv]
  induction rest with
  | nil => simp [parse_obo, hs, hstep]
  | cons x xs _ => simp [parse_obo, hs, hstep]

/-- C10 witness: a second `[Term]` marker immediately after an open record
(no blank line between) aborts the parse with the unpacking fault. -/
theorem parse_obo_unpack_fault_witness :
    parse_obo ["[Term]", "id: GO:0000001", "[Term]"] =
      .error "ValueError: not enough values to unpack" :=
  parse_obo_unpack_fault ["[Term]", "id: GO:0000001"]
    ⟨true, [("id", "GO:0000001")], []⟩ "[Term]" [] rfl rfl
    (by decide) (by decide)

/-! ### Document assembler theorems -/

theorem attachBucket_dget_ne (NCBI : List (String × Value))
    (ann : List (String × Value)) (key : String)
    (b : Option (List (String × String))) (k' : String) (h : key ≠ k') :
    dget (attachBucket NCBI ann key b) k' = dget ann k' := by
  cases b with
  | none => rfl
  | some l => exact dget_dset_ne _ _ _ _ h

/-- Through the bucket conversions, the cleanup passes and the `_id`
rewrite, a missing `date` key stays missing; the reorder loop of
`assembleGenes` therefore faults on it. -/
theorem assembleGenes_keyerror_date (NCBI ann : List (String × Value))
    (r : Record) (gs : List (String × String)) (i0 t0 : String)
    (h1 : dget ann "_id" = some (.str i0)) (hi : ¬ i0 = "")
    (h2 : dget ann "taxid" = some (.str t0)) (ht : ¬ t0 = "")
    (h3 : dget ann "date" = none) :
    assembleGenes NCBI ann r gs = .error ("KeyError: " ++ "date") := by
  unfold assembleGenes
  set A4 := attachBucket NCBI
    (attachBucket NCBI
      (attachBucket NCBI
        (dset ann "genes"
          (.list (gs.map (fun p => Value.dict (geneEntry NCBI p)))))
        "excluded_genes" r.excluded_genes)
      "contributing_genes" r.contributing_genes)
    "colocalized_genes" r.colocalized_genes with hA4
  have g4 : dget A4 "_id" = some (Value.str i0) := by
    rw [hA4, attachBucket_dget_ne _ _ _ _ _ (by decide),
      attachBucket_dget_ne _ _ _ _ _ (by decide),
      attachBucket_dget_ne _ _ _ _ _ (by decide),
      dget_dset_ne _ _ _ _ (by decide), h1]
  have t4 : dget A4 "taxid" = some (Value.str t0) := by
    rw [hA4, attachBucket_dget_ne _ _ _ _ _ (by decide),
      attachBucket_dget_ne _ _ _ _ _ (by decide),
      attachBucket_dget_ne _ _ _ _ _ (by decide),
      dget_dset_ne _ _ _ _ (by decide), h2]
  have d4 : dget A4 "date" = none := by
    rw [hA4, attachBucket_dget_ne _ _ _ _ _ (by decide),
      attachBucket_dget_ne _ _ _ _ _ (by decide),
      attachBucket_dget_ne _ _ _ _ _ (by decide),
      dget_dset_ne _ _ _ _ (by decide), h3]
  have g5 : dget (sweepD A4) "_id" = some (Value.str i0) :=
    dget_sweepD_some A4 "_id" (Value.str i0) g4 (by simp [sweepV, isEmptyV, hi])
  have t5 : dget (sweepD A4) "taxid" = some (Value.str t0) :=
    dget_sweepD_some A4 "taxid" (Value.str t0) t4 (by simp [sweepV, isEmptyV, ht])
  have d5 : dget (sweepD A4) "date" = none := dget_sweepD_none A4 "date" d4
  have g6 : dget (unlistD (sweepD A4)) "_id" = some (Value.str i0) := by
    rw [dget_unlistD, g5]; rfl
  have t6 : dget (unlistD (sweepD A4)) "taxid" = some (Value.str t0) := by
    rw [dget_unlistD, t5]; rfl
  have d6 : dget (unlistD (sweepD A4)) "date" = none := by
    rw [dget_unlistD, d5]; rfl
  have ii : dget (dset (unlistD (sweepD A4)) "_id" (.str (i0 ++ "-" ++ t0))) "_id" =
      some (Value.str (i0 ++ "-" ++ t0)) := dget_dset_self _ _ _
  have dd : dget (dset (unlistD (sweepD A4)) "_id" (.str (i0 ++ "-" ++ t0))) "date" =
      none := by
    rw [dget_dset_ne _ _ _ _ (by decide), d6]
  simp [g6, t6, reqStr, req, List.mapM.loop, ii, dd, ← hA4]

/-- C3: the fixed key-sequence reordering step faults with a key lookup on
`date` for every record that reaches it — the assembled record carries only
the keys set upstream (`_id`, `is_public`, `taxid`, the gene buckets and
`go`), never `date` or `creator`, so every assembled document attempt
aborts. -/
theorem assembleRecord_reorder_keyerror_date
    (goterms : List (String × List (String × String)))
    (NCBI : List (String × Value)) (k : String) (r : Record)
    (g : List (String × String)) (nm ns df : String)
    (gs : List (String × String))
    (hg : dget goterms k = some g) (hnm : dget g "name" = some nm)
    (hns : dget g "namespace" = some ns) (hdf : dget g "def" = some df)
    (hgenes : r.genes = some gs)
    (hid : ¬ r._id = "") (htax : ¬ r.taxid = "") :
    assembleRecord goterms NCBI k r = .error ("KeyError: " ++ "date") := by
  have base_id : dget (dset (toDictBase r) "go" (Value.dict
      [("id", .str k), ("name", .str nm), ("type", .str ns),
       ("description", .str df)])) "_id" = some (.str r._id) := by
    rw [dget_dset_ne _ _ _ _ (by decide)]; rfl
  have base_tax : dget (dset (toDictBase r) "go" (Value.dict
      [("id", .str k), ("name", .str nm), ("type", .str ns),
       ("description", .str df)])) "taxid" = some (.str r.taxid) := by
    rw [dget_dset_ne _ _ _ _ (by decide)]; rfl
  have base_date : dget (dset (toDictBase r) "go" (Value.dict
      [("id", .str k), ("name", .str nm), ("type", .str ns),
       ("description", .str df)])) "date" = none := by
    rw [dget_dset_ne _ _ _ _ (by decide)]; rfl
  have htail := assembleGenes_keyerror_date NCBI
    (dset (toDictBase r) "go" (Value.dict
      [("id", .str k), ("name", .str nm), ("type", .str ns),
       ("description", .str df)])) r gs r._id r.taxid
    base_id hid base_tax htax base_date
  simp [assembleRecord, req, hg, hnm, hns, hdf, hgenes, htail]

/-- C3 witness: a well-formed member record assembled against the fixture
ontology faults at the `date` key of the reorder step. -/
theorem assembleRecord_reorder_keyerror_date_witness :
    assembleRecord goFix [] "GO:0000001" recMember =
      .error ("KeyError: " ++ "date") :=
  assembleRecord_reorder_keyerror_date goFix [] "GO:0000001" recMember
    [("id", "GO:0000001"), ("name", "mitochondrion inheritance"),
     ("namespace", "biological_process"),
     ("def", "The distribution of mitochondria.")]
    "mitochondrion inheritance" "biological_process"
    "The distribution of mitochondria." [("P1", "GENE1")]
    rfl rfl rfl rfl rfl (by decide) (by decide)

/-- C7: an annotation record whose GO term id is absent from the ontology
table makes the metadata-attachment step of the assembler raise a
key-lookup fault — no silent skip. -/
theorem assembleRecord_ontology_miss_error
    (goterms : List (String × List (String × String)))
    (NCBI : List (String × Value)) (k : String) (r : Record)
    (hg : dget goterms k = none) :
    assembleRecord goterms NCBI k r = .error ("KeyError: " ++ k) := by
  simp [assembleRecord, req, hg]

/-- C7 witness: `GO:0000002` is absent from the one-term ontology table, so
assembling its record faults. -/
theorem assembleRecord_ontology_miss_error_witness :
    assembleRecord goFix [] "GO:0000002" recOther =
      .error ("KeyError: " ++ "GO:0000002") :=
  assembleRecord_ontology_miss_error goFix [] "GO:0000002" recOther rfl

/-- C4: an annotation record with no member (`genes`) bucket yields no
document — provided its ontology metadata resolves, the assembler returns
`none` (the record is silently dropped) rather than a document or a
fault. -/
theorem assembleRecord_no_member_no_doc
    (goterms : List (String × List (String × String)))
    (NCBI : List (String × Value)) (k : String) (r : Record)
    (g : List (String × String)) (nm ns df : String)
    (hg : dget goterms k = some g) (hnm : dget g "name" = some nm)
    (hns : dget g "namespace" = some ns) (hdf : dget g "def" = some df)
    (hgenes : r.genes = none) :
    assembleRecord goterms NCBI k r = .ok none := by
  simp [assembleRecord, req, hg, hnm, hns, hdf, hgenes]

/-- C4 witness: a record holding only an excluded bucket is dropped with no
document and no fault. -/
theorem assembleRecord_no_member_no_doc_witness :
    assembleRecord goFix [] "GO:0000001" recExcluded = .ok none :=
  assembleRecord_no_member_no_doc goFix [] "GO:0000001" recExcluded
    [("id", "GO:0000001"), ("name", "mitochondrion inheritance"),
     ("namespace", "biological_process"),
     ("def", "The distribution of mitochondria.")]
    "mitochondrion inheritance" "biological_process"
    "The distribution of mitochondria." rfl rfl rfl rfl rfl

/-- C2: for a non-empty parsed annotation file, the per-file loop performs
exactly one resolver call, and the taxon id passed to it is the `taxid` of
the final record scanned in the gene-collection loop — not a per-term
taxon. -/
theorem processFile_single_resolver_call
    (goterms : List (String × List (String × String)))
    (docs : List (String × Record))
    (resolve : Finset (String × String) → String → List (String × Value))
    (h : docs ≠ []) :
    (processFile goterms docs resolve).1 =
      [(docs.foldl (fun acc p => acc ∪ bucketsUnion p.2) ∅,
        (docs.getLast h).2.taxid)] := by
  unfold processFile
  rw [List.getLast?_eq_getLast_of_ne_nil h]

/-- C2 witness: a file with two terms of different taxa makes one resolver
call, against the last record's taxon `10090`, even though the first term
carries taxon `9606`. -/
theorem processFile_single_resolver_call_witness :
    (processFile goFix [("GO:0000001", recMember), ("GO:0000002", recOther)]
        (fun _ _ => [])).1 =
      [({("P1", "GENE1"), ("P3", "GENE3")}, "10090")] := by
  have h := processFile_single_resolver_call goFix
    [("GO:0000001", recMember), ("GO:0000002", recOther)]
    (fun _ _ => []) (by decide)
  rw [h]
  decide

/-! ### `parse_gaf` lemmas -/

theorem parse_gaf_append (rows : List GafRow) (row : GafRow) :
    parse_gaf (rows ++ [row]) = processRow (parse_gaf rows) row := by
  simp [parse_gaf, List.foldl_append]

theorem mem_insertPair (l : List (String × String)) (p q : String × String) :
    q ∈ insertPair l p ↔ q ∈ l ∨ q = p := by
  unfold insertPair
  by_cases h : p ∈ l
  · simp only [if_pos h]
    constructor
    · exact Or.inl
    · rintro (hq | rfl)
      · exact hq
      · exact h
  · simp [if_neg h]

theorem addQualifiers_genes (quals : List String) (u s : String) (r : Record) :
    (addQualifiers quals u s r).genes =
      if quals.contains "colocalizes_with" then r.genes
      else some (insertPair (r.genes.getD []) (u, s)) := by
  by_cases h1 : "NOT" ∈ quals <;>
    by_cases h2 : "contributes_to" ∈ quals <;>
      by_cases h3 : "colocalizes_with" ∈ quals <;>
        simp [addQualifiers, bucketAdd, h1, h2, h3]

theorem addQualifiers_scalar (quals : List String) (u s : String) (r : Record) :
    (addQualifiers quals u s r)._id = r._id ∧
    (addQualifiers quals u s r).is_public = r.is_public ∧
    (addQualifiers quals u s r).taxid = r.taxid := by
  by_cases h1 : "NOT" ∈ quals <;>
    by_cases h2 : "contributes_to" ∈ quals <;>
      by_cases h3 : "colocalizes_with" ∈ quals <;>
        simp [addQualifiers, h1, h2, h3]

theorem dget_updateRec_self (m : List (String × Record)) (k : String)
    (f : Record → Record) :
    dget (updateRec m k f) k = (dget m k).map f := by
  induction m with
  | nil => rfl
  | cons p m ih =>
    obtain ⟨k', r⟩ := p
    by_cases h : k' = k
    · subst h
      simp [updateRec, dget]
    · simp [updateRec, dget, h, ih]

theorem dget_updateRec_ne (m : List (String × Record)) (k : String)
    (f : Record → Record) (k' : String) (h : k ≠ k') :
    dget (updateRec m k f) k' = dget m k' := by
  induction m with
  | nil => rfl
  | cons p m ih =>
    obtain ⟨k₀, r⟩ := p
    by_cases h0 : k₀ = k
    · subst h0
      simp [updateRec, dget, h, ih]
    · by_cases h1 : k₀ = k'
      · simp [updateRec, dget, h0, h1, Ne.symm h]
      · simp [updateRec, dget, h0, h1, Ne.symm h, ih]

/-- The value of `processRow m row` at key `k`: untouched for comment rows
and for keys other than the row's GO id; otherwise the qualifier update of
the existing record (or of a fresh `initRecord` when the key is new). -/
theorem dget_processRow (m : List (String × Record)) (row : GafRow) (k : String) :
    dget (processRow m row) k =
      if pyStartsWith row.db "!" then dget m k
      else if row.goId = k then
        some (addQualifiers (strSplit row.qualifier "|") row.uniprot row.symbol
          ((dget m k).getD (initRecord k row)))
      else dget m k := by
  by_cases hdb : pyStartsWith row.db "!"
  · simp [processRow, hdb]
  · by_cases hk : row.goId = k
    · subst hk
      cases hm : dget m row.goId with
      | none =>
        have happ : dget (m ++ [(row.goId, initRecord row.goId row)]) row.goId =
            some (initRecord row.goId row) := by
          rw [dget_append, hm]
          simp [dget]
        simp [processRow, hdb, hm, dget_updateRec_self, happ]
      | some r0 =>
        simp [processRow, hdb, hm, dget_updateRec_self]
    · by_cases hm : (dget m row.goId).isNone
      · have happ : dget (m ++ [(row.goId, initRecord row.goId row)]) k = dget m k := by
          rw [dget_append]
          cases h' : dget m k with
          | none => simp [dget, hk]
          | some r0 => rfl
        simp [processRow, hdb, hm, dget_updateRec_ne _ _ _ _ hk, happ, hk]
      · simp [processRow, hdb, hm, dget_updateRec_ne _ _ _ _ hk, hk]

theorem processRow_member_iff (m : List (String × Record)) (row : GafRow)
    (k u s : String) :
    (∃ r, dget (processRow m row) k = some r ∧ (u, s) ∈ r.genes.getD []) ↔
    ((∃ r, dget m k = some r ∧ (u, s) ∈ r.genes.getD []) ∨
      (pyStartsWith row.db "!" = false ∧ row.goId = k ∧ row.uniprot = u ∧
        row.symbol = s ∧ "colocalizes_with" ∉ strSplit row.qualifier "|")) := by
  by_cases hdb : pyStartsWith row.db "!"
  · simp [dget_processRow, hdb]
  · by_cases hk : row.goId = k
    · subst hk
      rw [show (∃ r, dget (processRow m row) row.goId = some r ∧
          (u, s) ∈ r.genes.getD []) ↔
        ((u, s) ∈ (addQualifiers (strSplit row.qualifier "|") row.uniprot
          row.symbol ((dget m row.goId).getD
            (initRecord row.goId row))).genes.getD []) from by
        simp [dget_processRow, hdb]]
      by_cases hc : "colocalizes_with" ∈ strSplit row.qualifier "|"
      · rw [addQualifiers_genes]
        cases hm : dget m row.goId with
        | none => simp [hc, hm, initRecord, hdb]
        | some r0 => simp [hc, hm, hdb]
      · rw [addQualifiers_genes]
        cases hm : dget m row.goId with
        | none =>
          simp [hc, hm, initRecord, mem_insertPair, hdb, Prod.ext_iff, eq_comm]
        | some r0 =>
          simp [hc, hm, mem_insertPair, hdb, Prod.ext_iff, eq_comm]
    · simp [dget_processRow, hdb, hk]

/-- C1 amended: a data row's `(uniprot, symbol)` pair is added to the
member (`genes`) bucket of its GO term exactly when the row's qualifier
list does not contain `colocalizes_with` — the source attaches the default
branch to the `colocalizes_with` test only, so rows qualified only `NOT`
or only `contributes_to` also populate the member bucket. -/
theorem parse_gaf_member_iff (rows : List GafRow) (k u s : String) :
    (∃ r, dget (parse_gaf rows) k = some r ∧ (u, s) ∈ r.genes.getD []) ↔
    (∃ row ∈ rows, pyStartsWith row.db "!" = false ∧ row.goId = k ∧
      row.uniprot = u ∧ row.symbol = s ∧
      "colocalizes_with" ∉ strSplit row.qualifier "|") := by
  induction rows using List.reverseRecOn with
  | nil => simp [parse_gaf, dget]
  | append_singleton rows row ih =>
    rw [parse_gaf_append, processRow_member_iff, ih]
    constructor
    · rintro (⟨row', hrow', hp⟩ | hp)
      · exact ⟨row', by simp [hrow'], hp⟩
      · exact ⟨row, by simp, hp⟩
    · rintro ⟨row', hmem, hp⟩
      rcases List.mem_append.mp hmem with h | h
      · exact Or.inl ⟨row', h, hp⟩
      · rw [List.mem_singleton] at h
        subst h
        exact Or.inr hp

/-- C1 counterexample: the row `rowNot` is qualified only `NOT`, yet its
`(P2, GENE2)` pair lands in the member (`genes`) bucket of `GO:0000001` —
refuting the claim that a `NOT`-qualified row never populates the member
bucket. -/
theorem parse_gaf_not_row_in_member :
    ("NOT" ∈ strSplit rowNot.qualifier "|") ∧
    ∃ r, dget (parse_gaf [rowNot]) "GO:0000001" = some r ∧
      ("P2", "GENE2") ∈ r.genes.getD [] := by
  refine ⟨by decide, ?_⟩
  exact ⟨⟨"GO:0000001", true, "9606", some [("P2", "GENE2")],
    some [("P2", "GENE2")], none, none⟩, rfl, by decide⟩

/-- C9: every record in `parse_gaf`'s result has `_id` equal to its key
and `is_public` true; `_id`, `is_public` and `taxid` are fixed when a
term's record is first created (with `taxid` parsed from that first row's
taxon column) and no later row alters them. -/
theorem parse_gaf_record_invariants :
    (∀ rows k r, dget (parse_gaf rows) k = some r →
      r._id = k ∧ r.is_public = true) ∧
    (∀ rows row k r, dget (parse_gaf rows) k = some r →
      ∃ r', dget (parse_gaf (rows ++ [row])) k = some r' ∧
        r'._id = r._id ∧ r'.is_public = r.is_public ∧ r'.taxid = r.taxid) ∧
    (∀ rows row, dget (parse_gaf rows) row.goId = none →
      pyStartsWith row.db "!" = false →
      ∃ r, dget (parse_gaf (rows ++ [row])) row.goId = some r ∧
        r.taxid = taxidOf row) := by
  refine ⟨?_, ?_, ?_⟩
  · intro rows
    induction rows using List.reverseRecOn with
    | nil =>
      intro k r h
      simp [parse_gaf, dget] at h
    | append_singleton rows row ih =>
      intro k r h
      rw [parse_gaf_append, dget_processRow] at h
      by_cases hdb : pyStartsWith row.db "!"
      · rw [if_pos hdb] at h
        exact ih k r h
      · rw [if_neg hdb] at h
        by_cases hk : row.goId = k
        · rw [if_pos hk] at h
          have hx := Option.some.inj h
          subst hx
          obtain ⟨e1, e2, _⟩ := addQualifiers_scalar (strSplit row.qualifier "|")
            row.uniprot row.symbol ((dget (parse_gaf rows) k).getD (initRecord k row))
          rw [e1, e2]
          cases hm : dget (parse_gaf rows) k with
          | none => simp [hm, initRecord]
          | some r0 =>
            simp only [Option.getD_some]
            exact ih k r0 hm
        · rw [if_neg hk] at h
          exact ih k r h
  · intro rows row k r h
    rw [parse_gaf_append, dget_processRow]
    by_cases hdb : pyStartsWith row.db "!"
    · rw [if_pos hdb]
      exact ⟨r, h, rfl, rfl, rfl⟩
    · rw [if_neg hdb]
      by_cases hk : row.goId = k
      · rw [if_pos hk]
        simp only [h, Option.getD_some]
        have e := addQualifiers_scalar (strSplit row.qualifier "|")
          row.uniprot row.symbol r
        exact ⟨_, rfl, e.1, e.2.1, e.2.2⟩
      · rw [if_neg hk]
        exact ⟨r, h, rfl, rfl, rfl⟩
  · intro rows row h hdb
    rw [parse_gaf_append, dget_processRow, if_neg (by simp [hdb]), if_pos rfl]
    simp only [h, Option.getD_none]
    have e := addQualifiers_scalar (strSplit row.qualifier "|")
      row.uniprot row.symbol (initRecord row.goId row)
    exact ⟨_, rfl, e.2.2⟩

/-- C9 witness: after a second row for `GO:0000001` arriving with taxon
`10090`, the record's `_id`, `is_public` and `taxid` are those set by the
first row — `taxid` stays `9606`. -/
theorem parse_gaf_record_invariants_witness :
    ∃ r', dget (parse_gaf [rowPlain, rowLateTaxon]) "GO:0000001" = some r' ∧
      r'._id = "GO:0000001" ∧ r'.is_public = true ∧ r'.taxid = "9606" := by
  obtain ⟨r', hr', h1, h2, h3⟩ := parse_gaf_record_invariants.2.1 [rowPlain]
    rowLateTaxon "GO:0000001"
    ⟨"GO:0000001", true, "9606", some [("P1", "GENE1")], none, none, none⟩ rfl
  exact ⟨r', hr', h1, h2, h3⟩

/-! ### `get_NCBI_id` lemmas -/

theorem dget_dappend_self (m : List (String × List Nat)) (k : String) (e : Nat) :
    dget (dappend m k e) k = some ((dget m k).getD [] ++ [e]) := by
  unfold dappend
  cases hm : dget m k with
  | none =>
    rw [dget_append, hm]
    simp [dget]
  | some l => simp [dget_dset_self]

theorem dget_dappend_ne (m : List (String × List Nat)) (k : String) (e : Nat)
    (k' : String) (h : k ≠ k') : dget (dappend m k e) k' = dget m k' := by
  unfold dappend
  cases hm : dget m k with
  | none =>
    rw [dget_append]
    cases h' : dget m k' with
    | none => simp [dget, h]
    | some l => rfl
  | some l => simp [dget_dset_ne _ _ _ _ h]

theorem dget_addOuts (outs : List QueryOut) :
    ∀ (m : List (String × List Nat)) (q : String),
      dget (addOuts outs m) q =
        match dget m q, collectOuts outs q with
        | none, [] => none
        | none, l => some l
        | some l0, l => some (l0 ++ l) := by
  induction outs with
  | nil =>
    intro m q
    simp only [addOuts, List.foldl_nil, collectOuts, List.filterMap_nil]
    cases dget m q <;> simp
  | cons o os ih =>
    intro m q
    have hstep : addOuts (o :: os) m =
        addOuts os (match o.entrezgene with
          | some e => dappend m o.query e
          | none => m) := rfl
    rw [hstep]
    cases he : o.entrezgene with
    | none =>
      rw [ih]
      have hc : collectOuts (o :: os) q = collectOuts os q := by
        simp [collectOuts, List.filterMap_cons, he]
      rw [hc]
    | some e =>
      by_cases hq : o.query = q
      · subst hq
        rw [ih, dget_dappend_self]
        have hc : collectOuts (o :: os) o.query = e :: collectOuts os o.query := by
          simp [collectOuts, List.filterMap_cons, he]
        rw [hc]
        cases hm : dget m o.query with
        | none => simp
        | some l0 => simp
      · rw [ih, dget_dappend_ne _ _ _ _ hq]
        have hc : collectOuts (o :: os) q = collectOuts os q := by
          simp [collectOuts, List.filterMap_cons, he, hq]
        rw [hc]

theorem retryList_pairs (symbols uniprot_ids : List String) :
    ∀ missing retry,
      retryList symbols uniprot_ids missing = .ok retry →
      List.Forall₂ (fun k u => ∃ i, symbols.indexOf? k = some i ∧
        uniprot_ids[i]? = some u) missing retry := by
  intro missing
  induction missing with
  | nil =>
    intro retry h
    obtain rfl : ([] : List String) = retry := Except.ok.inj h
    exact .nil
  | cons k ks ih =>
    intro retry h
    unfold retryList at h
    cases hio : symbols.indexOf? k with
    | none => simp [hio] at h
    | some i =>
      simp only [hio] at h
      cases hup : uniprot_ids[i]? with
      | none => simp [hup] at h
      | some u =>
        simp only [hup] at h
        cases hr : retryList symbols uniprot_ids ks with
        | error e => simp [hr] at h
        | ok rest =>
          simp only [hr, ok_map] at h
          obtain rfl : u :: rest = retry := Except.ok.inj h
          exact .cons ⟨i, hio, hup⟩ (ih rest hr)

/-- C8: with `r1` the symbol-scope response, (i) every symbol reported
missing by `r1` is re-queried through the protein id paired with its first
occurrence in `symbols`; (ii) exactly two service calls are made — symbols
under scope `symbol`, then the retry list under scope `uniprot`; (iii) the
returned mapping is the `unlist` of a dict that, at any key `q`, holds the
concatenation of every `entrezgene` hit for `q` from both passes (appended
in order, never overwritten) — in particular a second-pass hit is keyed by
the protein id the service echoes, not by the original symbol. -/
theorem get_NCBI_id_spec (symbols uniprot_ids : List String) (taxid : String)
    (svc : List String → String → String → QueryResponse) (retry : List String)
    (hretry : retryList symbols uniprot_ids
      (svc symbols "symbol" taxid).missing = .ok retry) :
    List.Forall₂ (fun k u => ∃ i, symbols.indexOf? k = some i ∧
        uniprot_ids[i]? = some u)
      (svc symbols "symbol" taxid).missing retry ∧
    (get_NCBI_id symbols uniprot_ids taxid svc).1 =
      [⟨symbols, "symbol", taxid⟩, ⟨retry, "uniprot", taxid⟩] ∧
    ∃ m, (get_NCBI_id symbols uniprot_ids taxid svc).2 = .ok (ncbiFinish m) ∧
      ∀ q, dget m q =
        match collectOuts ((svc symbols "symbol" taxid).out ++
            (svc retry "uniprot" taxid).out) q with
        | [] => none
        | l => some l := by
  refine ⟨retryList_pairs _ _ _ _ hretry, ?_, ?_⟩
  · simp [get_NCBI_id, hretry]
  · refine ⟨addOuts (svc retry "uniprot" taxid).out
      (addOuts (svc symbols "symbol" taxid).out []), ?_, ?_⟩
    · simp [get_NCBI_id, hretry]
    · intro q
      rw [dget_addOuts, dget_addOuts]
      have hnil : dget ([] : List (String × List Nat)) q = none := rfl
      rw [hnil]
      have hc : collectOuts ((svc symbols "symbol" taxid).out ++
          (svc retry "uniprot" taxid).out) q =
          collectOuts (svc symbols "symbol" taxid).out q ++
            collectOuts (svc retry "uniprot" taxid).out q := by
        simp [collectOuts, List.filterMap_append]
      rw [hc]
      cases h1 : collectOuts (svc symbols "symbol" taxid).out q with
      | nil =>
        cases h2 : collectOuts (svc retry "uniprot" taxid).out q with
        | nil => simp
        | cons y ys => simp
      | cons x xs =>
        cases h2 : collectOuts (svc retry "uniprot" taxid).out q with
        | nil => simp
        | cons y ys => simp

/-- C8 witness: with the fixture service, symbol `ABC` is missing in pass
one and its paired protein id `P123` resolves in pass two; the output maps
`P123` (not `ABC`) to `42`, and `GENE1`, which matched twice, keeps both
ids `7` and `8`. -/
theorem get_NCBI_id_spec_witness :
    (get_NCBI_id ["GENE1", "ABC"] ["P1", "P123"] "9606" svcFix).1 =
      [⟨["GENE1", "ABC"], "symbol", "9606"⟩, ⟨["P123"], "uniprot", "9606"⟩] ∧
    (get_NCBI_id ["GENE1", "ABC"] ["P1", "P123"] "9606" svcFix).2 =
      .ok [("GENE1", .list [.nat 7, .nat 8]), ("P123", .nat 42)] := by
  have h := get_NCBI_id_spec ["GENE1", "ABC"] ["P1", "P123"] "9606" svcFix
    ["P123"] rfl
  exact ⟨h.2.1, rfl⟩

end GoGeneset
